import Mathlib

/-!
Verification of the ADM1 simulation dashboard's parameter-resolution and
AI-response ingestion pipeline.

The development shallowly embeds the relevant parts of the repository:

* `simulation_helpers.py` — `run_simulation` (default concentration table,
  override merging, reactor sizing, evaluation grid), `create_influent_stream`
  (its own copy of the table and merge loop), `display_gas_stream` (gas-phase
  unit conversion with the zero-total-flow guard);
* `app.py` — `parse_ai_recommendations` (regex JSON location, `json.loads`,
  the entry loop with its `continue`/`float()` behaviour and the enclosing
  `try/except` that returns the maps accumulated so far);
* `main.py` — the session-state ingestion of a parsed AI response and the
  manual-input `feedstock_defaults` table.

Numeric values are modelled over `ℚ` (exact arithmetic); Python `dict`s are
modelled as association lists with insertion-order semantics (assignment to an
existing key keeps its position, a new key is appended); Python exceptions are
made explicit (`Option` results, and a `Bool` flag marking an exception that
escaped the entry loop and was caught by the enclosing handler).
-/

/-- Python dictionary assignment `d[k] = v`: if `k` is already bound, the
binding keeps its position and gets the new value; otherwise `(k, v)` is
appended at the end. -/
def dictSet {α : Type} (d : List (String × α)) (k : String) (v : α) :
    List (String × α) :=
  if (d.lookup k).isSome then
    d.map (fun p => if p.1 = k then (k, v) else p)
  else
    d ++ [(k, v)]

/-- Python `d.update(new)`: assign every binding of `new` into `d`, in order. -/
def dictUpdate {α : Type} (d new : List (String × α)) : List (String × α) :=
  new.foldl (fun acc kv => dictSet acc kv.1 kv.2) d

/-- JSON values as produced by `json.loads`. -/
inductive JVal where
  | jnull : JVal
  | jbool : Bool → JVal
  | jnum : ℚ → JVal
  | jstr : String → JVal
  | jarr : List JVal → JVal
  | jobj : List (String × JVal) → JVal

/-- Whitespace skipping used by the JSON reader. -/
def skipWs : List Char → List Char
  | [] => []
  | c :: cs =>
    if c = ' ' ∨ c = '\n' ∨ c = '\t' ∨ c = '\r' then skipWs cs else c :: cs

/-- Digit run at the front of a character list. -/
def spanDigits (cs : List Char) : List Char × List Char :=
  (cs.takeWhile Char.isDigit, cs.dropWhile Char.isDigit)

/-- Numeric value of a digit run. -/
def digitsVal (ds : List Char) : ℕ :=
  ds.foldl (fun a c => 10 * a + (c.toNat - '0'.toNat)) 0

/-- Body of a JSON string literal, after the opening quote. Returns the decoded
characters and the input remaining after the closing quote. `\uXXXX` escapes
are not modelled (they are treated as a parse failure); none of the strings the
claims involve use them. -/
def jstringBody : List Char → Option (List Char × List Char)
  | [] => none
  | c :: cs =>
    if c = '"' then some ([], cs)
    else if c = '\\' then
      match cs with
      | [] => none
      | e :: cs2 =>
        let d? : Option Char :=
          if e = '"' then some '"'
          else if e = '\\' then some '\\'
          else if e = '/' then some '/'
          else if e = 'n' then some '\n'
          else if e = 't' then some '\t'
          else if e = 'r' then some '\r'
          else none
        match d? with
        | none => none
        | some d =>
          match jstringBody cs2 with
          | none => none
          | some (out, rest) => some (d :: out, rest)
    else
      match jstringBody cs with
      | none => none
      | some (out, rest) => some (c :: out, rest)

/-- Exponent part of a JSON number (`e`/`E`, optional sign, digits); returns
`(0, cs)` when no exponent is present. -/
def jexpPart (cs : List Char) : Option (ℤ × List Char) :=
  match cs with
  | c :: rest =>
    if c = 'e' ∨ c = 'E' then
      let (esign, rest2) :=
        match rest with
        | '-' :: r => ((-1 : ℤ), r)
        | '+' :: r => ((1 : ℤ), r)
        | _ => ((1 : ℤ), rest)
      let (eds, rest3) := spanDigits rest2
      if eds.isEmpty then none
      else some (esign * (digitsVal eds : ℤ), rest3)
    else some (0, cs)
  | [] => some (0, [])

/-- JSON number at the front of the input: optional `-`, integer digits,
optional fraction, optional exponent. -/
def jnumberAt (cs : List Char) : Option (ℚ × List Char) :=
  let (neg, cs1) :=
    match cs with
    | '-' :: rest => (true, rest)
    | _ => (false, cs)
  let (ds, cs2) := spanDigits cs1
  if ds.isEmpty then none
  else
    let (fds, cs3) :=
      match cs2 with
      | '.' :: rest => spanDigits rest
      | _ => ([], cs2)
    if cs2.headD ' ' = '.' ∧ fds.isEmpty then none
    else
      match jexpPart cs3 with
      | none => none
      | some (e, cs4) =>
        let base : ℚ :=
          (digitsVal ds : ℚ) + (digitsVal fds : ℚ) / (10 : ℚ) ^ fds.length
        let q := base * (10 : ℚ) ^ e
        some ((if neg then -q else q), cs4)

mutual

/-- JSON value at the front of the input, fuel-bounded recursion. -/
def jvalueAt : ℕ → List Char → Option (JVal × List Char)
  | 0, _ => none
  | fuel + 1, cs =>
    let cs := skipWs cs
    match cs with
    | [] => none
    | c :: rest =>
      if c = '"' then
        match jstringBody rest with
        | none => none
        | some (out, rest2) => some (JVal.jstr (String.mk out), rest2)
      else if c = '\x7b' then
        jmembersAt fuel rest true
      else if c = '[' then
        jitemsAt fuel rest true
      else if cs.take 4 = ['n', 'u', 'l', 'l'] then
        some (JVal.jnull, cs.drop 4)
      else if cs.take 4 = ['t', 'r', 'u', 'e'] then
        some (JVal.jbool true, cs.drop 4)
      else if cs.take 5 = ['f', 'a', 'l', 's', 'e'] then
        some (JVal.jbool false, cs.drop 5)
      else
        match jnumberAt cs with
        | none => none
        | some (q, rest2) => some (JVal.jnum q, rest2)

/-- Members of a JSON object, after the opening brace (`first` marks the
position before the first member, where a closing brace is allowed). -/
def jmembersAt : ℕ → List Char → Bool → Option (JVal × List Char)
  | 0, _, _ => none
  | fuel + 1, cs, first =>
    let cs := skipWs cs
    match cs with
    | [] => none
    | c :: rest =>
      if c = '\x7d' ∧ first then some (JVal.jobj [], rest)
      else
        if c = '"' then
          match jstringBody rest with
          | none => none
          | some (key, rest2) =>
            match skipWs rest2 with
            | ':' :: rest3 =>
              match jvalueAt fuel rest3 with
              | none => none
              | some (v, rest4) =>
                match skipWs rest4 with
                | ',' :: rest5 =>
                  match jmembersAt fuel rest5 false with
                  | some (JVal.jobj more, rest6) =>
                    some (JVal.jobj ((String.mk key, v) :: more), rest6)
                  | _ => none
                | '\x7d' :: rest5 =>
                  some (JVal.jobj [(String.mk key, v)], rest5)
                | _ => none
            | _ => none
        else none

/-- Items of a JSON array, after the opening bracket. -/
def jitemsAt : ℕ → List Char → Bool → Option (JVal × List Char)
  | 0, _, _ => none
  | fuel + 1, cs, first =>
    let cs := skipWs cs
    match cs with
    | [] => none
    | c :: _ =>
      if c = ']' ∧ first then some (JVal.jarr [], cs.tail)
      else
        match jvalueAt fuel cs with
        | none => none
        | some (v, rest) =>
          match skipWs rest with
          | ',' :: rest2 =>
            match jitemsAt fuel rest2 false with
            | some (JVal.jarr more, rest3) => some (JVal.jarr (v :: more), rest3)
            | _ => none
          | ']' :: rest2 => some (JVal.jarr [v], rest2)
          | _ => none

end

/-- Python `json.loads`: parse the whole string as one JSON value, allowing
surrounding whitespace; anything else is a parse failure (`None` models the
raised `JSONDecodeError`). -/
def json_loads (s : String) : Option JVal :=
  match jvalueAt (s.length + 1) s.data with
  | some (v, rest) => if (skipWs rest).isEmpty then some v else none
  | none => none

/-- The regex search `re.search(r'\x7b.*\x7d', text, re.DOTALL)` of
`parse_ai_recommendations`: the match, if any, runs from the first opening
brace that has some closing brace after it, through the last closing brace of
the whole text. -/
def jsonMatch (s : String) : Option String :=
  let cs := s.data
  let closes := (List.range cs.length).filter (fun j => cs.getD j ' ' == '\x7d')
  match closes.getLast? with
  | none => none
  | some jEnd =>
    match ((List.range cs.length).filter
        (fun i => (cs.getD i ' ' == '\x7b') && Nat.blt i jEnd)).head? with
    | none => none
    | some iStart => some (String.mk ((cs.drop iStart).take (jEnd - iStart + 1)))

/-- The fixed feedstock key set of `parse_ai_recommendations` (app.py). -/
def feedstock_keys : List String :=
  ["S_su", "S_aa", "S_fa", "S_va", "S_bu", "S_pro", "S_ac", "S_h2", "S_ch4",
   "S_IC", "S_IN", "S_I",
   "X_c", "X_ch", "X_pr", "X_li", "X_su", "X_aa", "X_fa", "X_c4", "X_pro",
   "X_ac", "X_h2", "X_I",
   "S_cat", "S_an"]

/-- The fixed kinetic key set of `parse_ai_recommendations` (app.py). -/
def kinetic_keys : List String :=
  ["q_dis", "q_ch_hyd", "q_pr_hyd", "q_li_hyd",
   "k_su", "k_aa", "k_fa", "k_c4", "k_pro", "k_ac", "k_h2",
   "b_su", "b_aa", "b_fa", "b_c4", "b_pro", "b_ac", "b_h2",
   "K_su", "K_aa", "K_fa", "K_c4", "K_pro", "K_ac", "K_h2",
   "KI_h2_fa", "KI_h2_c4", "KI_h2_pro", "KI_nh3", "KS_IN",
   "Y_su", "Y_aa", "Y_fa", "Y_c4", "Y_pro", "Y_ac", "Y_h2",
   "f_bu_su", "f_pro_su", "f_ac_su", "f_va_aa", "f_bu_aa",
   "f_pro_aa", "f_ac_aa", "f_ac_fa", "f_pro_va", "f_ac_va",
   "f_ac_bu", "f_ac_pro"]

/-- The four maps returned by `parse_ai_recommendations`. -/
structure AIQuad where
  feedstock_values : List (String × ℚ)
  feedstock_explanations : List (String × JVal)
  kinetic_values : List (String × ℚ)
  kinetic_explanations : List (String × JVal)

/-- The four maps as initialised at the top of `parse_ai_recommendations`. -/
def emptyQuad : AIQuad := ⟨[], [], [], []⟩

/-- Python `float(s)` on a string: optional surrounding whitespace, optional
sign, decimal digits with an optional fractional part and an optional
exponent. (Specials such as `inf`/`nan` and underscore separators are not
modelled; every string the claims involve is either a plain decimal literal or
clearly non-numeric.) -/
def pyStrFloat (s : String) : Option ℚ :=
  let cs := skipWs s.data
  let (neg, cs1) :=
    match cs with
    | '-' :: rest => (true, rest)
    | '+' :: rest => (false, rest)
    | _ => (false, cs)
  let (ds, cs2) := spanDigits cs1
  let (fds, cs3) :=
    match cs2 with
    | '.' :: rest => spanDigits rest
    | _ => ([], cs2)
  if ds.isEmpty ∧ fds.isEmpty then none
  else
    match jexpPart cs3 with
    | none => none
    | some (e, cs4) =>
      if (skipWs cs4).isEmpty then
        let base : ℚ :=
          (digitsVal ds : ℚ) + (digitsVal fds : ℚ) / (10 : ℚ) ^ fds.length
        let q := base * (10 : ℚ) ^ e
        some (if neg then -q else q)
      else none

/-- Python `float(x)` applied to a parsed JSON value: numbers and booleans
convert, numeric strings are parsed, everything else raises (`none`). -/
def pyFloat : JVal → Option ℚ
  | JVal.jnum q => some q
  | JVal.jbool b => some (if b then 1 else 0)
  | JVal.jstr s => pyStrFloat s
  | _ => none

/-- One recorded entry (app.py lines 369-377): a feedstock key goes into the
feedstock maps, a kinetic key into the kinetic maps only when
`include_kinetics` is set, anything else is discarded. -/
def recordEntry (include_kinetics : Bool) (key : String) (val : ℚ)
    (explanation : JVal) (m : AIQuad) : AIQuad :=
  if key ∈ feedstock_keys then
    { m with
      feedstock_values := dictSet m.feedstock_values key val,
      feedstock_explanations := dictSet m.feedstock_explanations key explanation }
  else if include_kinetics ∧ key ∈ kinetic_keys then
    { m with
      kinetic_values := dictSet m.kinetic_values key val,
      kinetic_explanations := dictSet m.kinetic_explanations key explanation }
  else m

/-- The `for key, arr in data.items()` loop of `parse_ai_recommendations`.
A value that is not a list, or has fewer than 3 elements, is skipped
(`continue`); otherwise `float(arr[0])` is evaluated — if that conversion
fails the exception escapes the loop, so the accumulated maps are returned
with the flag `true` (the enclosing `except` then returns those very maps). -/
def extract_items (include_kinetics : Bool) :
    List (String × JVal) → AIQuad → AIQuad × Bool
  | [], acc => (acc, false)
  | (key, v) :: rest, acc =>
    match v with
    | JVal.jarr xs =>
      if xs.length < 3 then extract_items include_kinetics rest acc
      else
        match pyFloat (xs.getD 0 JVal.jnull) with
        | none => (acc, true)
        | some val =>
          extract_items include_kinetics rest
            (recordEntry include_kinetics key val (xs.getD 2 JVal.jnull) acc)
    | _ => extract_items include_kinetics rest acc

/-- Duplicate-key handling of `json.loads`: later bindings overwrite earlier
ones while keeping the first occurrence's position (CPython dict semantics). -/
def dictOf (entries : List (String × JVal)) : List (String × JVal) :=
  entries.foldl (fun d kv => dictSet d kv.1 kv.2) []

/-- `parse_ai_recommendations(response_text, include_kinetics)` (app.py
lines 326-381). Returns the four maps; every failure path of the source
(no regex match, `json.loads` raising, a non-dict parse result making
`.items()` raise, or `float()` raising inside the loop) ends in a normal
return of the maps accumulated at that point. -/
def parse_ai_recommendations (response_text : String)
    (include_kinetics : Bool) : AIQuad :=
  match jsonMatch response_text with
  | none => emptyQuad
  | some sub =>
    match json_loads sub with
    | some (JVal.jobj members) =>
      (extract_items include_kinetics (dictOf members) emptyQuad).1
    | some _ => emptyQuad
    | none => emptyQuad

/-- The four session override sets of `main.py`. -/
structure SessionState where
  influent_values : List (String × ℚ)
  influent_explanations : List (String × JVal)
  kinetic_params : List (String × ℚ)
  kinetic_explanations : List (String × JVal)

/-- The AI-ingestion step of `main` (main.py lines 104-122): parse the
response, then update each session override set only when the corresponding
returned map is non-empty (Python's truthiness test on a dict), with the
kinetic updates additionally gated on `use_kinetics`. -/
def ingest_ai_response (s : SessionState) (response : String)
    (use_kinetics : Bool) : SessionState :=
  let q := parse_ai_recommendations response use_kinetics
  let s1 :=
    if q.feedstock_values.isEmpty then s
    else { s with influent_values := dictUpdate s.influent_values q.feedstock_values }
  let s2 :=
    if q.feedstock_explanations.isEmpty then s1
    else { s1 with influent_explanations :=
            dictUpdate s1.influent_explanations q.feedstock_explanations }
  let s3 :=
    if use_kinetics ∧ ¬ q.kinetic_values.isEmpty then
      { s2 with kinetic_params := dictUpdate s2.kinetic_params q.kinetic_values }
    else s2
  let s4 :=
    if use_kinetics ∧ ¬ q.kinetic_explanations.isEmpty then
      { s3 with kinetic_explanations :=
          dictUpdate s3.kinetic_explanations q.kinetic_explanations }
    else s3
  s4

/-- The `default_conc` table of `run_simulation` (simulation_helpers.py lines
34-61), parameterised by the molecular weights `C_mw` and `N_mw` that the
source obtains from the external `chemicals` library. -/
def run_simulation_default_conc (C_mw N_mw : ℚ) : List (String × ℚ) :=
  [("S_su", 0.01),
   ("S_aa", 1e-3),
   ("S_fa", 1e-3),
   ("S_va", 1e-3),
   ("S_bu", 1e-3),
   ("S_pro", 1e-3),
   ("S_ac", 1e-3),
   ("S_h2", 1e-8),
   ("S_ch4", 1e-5),
   ("S_IC", 0.04 * C_mw),
   ("S_IN", 0.01 * N_mw),
   ("S_I", 0.02),
   ("X_c", 2.0),
   ("X_ch", 5.0),
   ("X_pr", 20.0),
   ("X_li", 5.0),
   ("X_su", 1e-2),
   ("X_aa", 1e-2),
   ("X_fa", 1e-2),
   ("X_c4", 1e-2),
   ("X_pro", 1e-2),
   ("X_ac", 1e-2),
   ("X_h2", 1e-2),
   ("X_I", 25),
   ("S_cat", 0.04),
   ("S_an", 0.02)]

/-- The `default_conc` table of `create_influent_stream`
(simulation_helpers.py lines 129-156) — a second copy in the source. -/
def create_influent_default_conc (C_mw N_mw : ℚ) : List (String × ℚ) :=
  [("S_su", 0.01),
   ("S_aa", 1e-3),
   ("S_fa", 1e-3),
   ("S_va", 1e-3),
   ("S_bu", 1e-3),
   ("S_pro", 1e-3),
   ("S_ac", 1e-3),
   ("S_h2", 1e-8),
   ("S_ch4", 1e-5),
   ("S_IC", 0.04 * C_mw),
   ("S_IN", 0.01 * N_mw),
   ("S_I", 0.02),
   ("X_c", 2.0),
   ("X_ch", 5.0),
   ("X_pr", 20.0),
   ("X_li", 5.0),
   ("X_su", 1e-2),
   ("X_aa", 1e-2),
   ("X_fa", 1e-2),
   ("X_c4", 1e-2),
   ("X_pro", 1e-2),
   ("X_ac", 1e-2),
   ("X_h2", 1e-2),
   ("X_I", 25),
   ("S_cat", 0.04),
   ("S_an", 0.02)]

/-- The `feedstock_defaults` table inside `main` (main.py lines 228-255) —
a third copy in the source. -/
def feedstock_defaults_main (C_mw N_mw : ℚ) : List (String × ℚ) :=
  [("S_su", 0.01),
   ("S_aa", 1e-3),
   ("S_fa", 1e-3),
   ("S_va", 1e-3),
   ("S_bu", 1e-3),
   ("S_pro", 1e-3),
   ("S_ac", 1e-3),
   ("S_h2", 1e-8),
   ("S_ch4", 1e-5),
   ("S_IC", 0.04 * C_mw),
   ("S_IN", 0.01 * N_mw),
   ("S_I", 0.02),
   ("X_c", 2.0),
   ("X_ch", 5.0),
   ("X_pr", 20.0),
   ("X_li", 5.0),
   ("X_su", 1e-2),
   ("X_aa", 1e-2),
   ("X_fa", 1e-2),
   ("X_c4", 1e-2),
   ("X_pro", 1e-2),
   ("X_ac", 1e-2),
   ("X_h2", 1e-2),
   ("X_I", 25),
   ("S_cat", 0.04),
   ("S_an", 0.02)]

/-- The override-merge loop shared (textually) by `run_simulation` and
`create_influent_stream`: `for k, v in concentrations.items(): if k in
default_conc: default_conc[k] = v`. -/
def concMergeStep (dc : List (String × ℚ)) (kv : String × ℚ) :
    List (String × ℚ) :=
  if (dc.lookup kv.1).isSome then dictSet dc kv.1 kv.2 else dc

/-- The resolved concentration map `run_simulation` passes to
`inf.set_flow_by_concentration` (simulation_helpers.py lines 62-70). -/
def run_simulation_resolve (C_mw N_mw : ℚ)
    (concentrations : List (String × ℚ)) : List (String × ℚ) :=
  concentrations.foldl concMergeStep (run_simulation_default_conc C_mw N_mw)

/-- The resolved concentration map `create_influent_stream` passes to
`inf.set_flow_by_concentration` (simulation_helpers.py lines 157-165). -/
def create_influent_resolve (C_mw N_mw : ℚ)
    (concentrations : List (String × ℚ)) : List (String × ℚ) :=
  concentrations.foldl concMergeStep (create_influent_default_conc C_mw N_mw)

/-- The geometry arguments of the `AnaerobicCSTR` construction. -/
structure AnaerobicCSTRArgs where
  V_liq : ℚ
  V_gas : ℚ
  T : ℚ

/-- The `AnaerobicCSTR` construction in `run_simulation`
(simulation_helpers.py lines 73-76): `V_liq=Q*HRT, V_gas=Q*HRT*0.1, T=Temp`. -/
def run_simulation_AD (Q Temp HRT : ℚ) : AnaerobicCSTRArgs :=
  { V_liq := Q * HRT, V_gas := Q * HRT * 0.1, T := Temp }

/-- The quantities computed and displayed by `display_gas_stream`. -/
structure GasDisplay where
  methane_flow : ℚ
  co2_flow : ℚ
  h2_flow : ℚ
  flow_vol_total : ℚ
  methane_pct : ℚ
  co2_pct : ℚ
  h2_ppmv : ℚ

/-- `display_gas_stream` (simulation_helpers.py lines 212-260): unit
conversion from the stream's component mass flows (`imass['S_ch4']`,
`imass['S_IC']`, `imass['S_h2']`, in mass per hour) to volumetric flows and
fractions, with the `flow_vol_total > 0` guard on every division. -/
def display_gas_stream (imass_S_ch4 imass_S_IC imass_S_h2 : ℚ) : GasDisplay :=
  let MW_CO2 : ℚ := 44.01
  let MW_C : ℚ := 12.01
  let DENSITY_CH4 : ℚ := 0.716
  let DENSITY_CO2 : ℚ := 1.977
  let DENSITY_H2 : ℚ := 0.0899
  let COD_CH4 : ℚ := 4.0
  let COD_H2 : ℚ := 8.0
  let mass_cod_ch4 := imass_S_ch4 * 24
  let mass_ch4 := mass_cod_ch4 / COD_CH4
  let methane_flow := mass_ch4 / DENSITY_CH4
  let mass_c := imass_S_IC * 24
  let mass_co2 := mass_c * (MW_CO2 / MW_C)
  let co2_flow := mass_co2 / DENSITY_CO2
  let mass_cod_h2 := imass_S_h2 * 24
  let mass_h2 := mass_cod_h2 / COD_H2
  let h2_flow := mass_h2 / DENSITY_H2
  let flow_vol_total := methane_flow + co2_flow + h2_flow
  let methane_pct := if flow_vol_total > 0 then methane_flow / flow_vol_total * 100 else 0
  let co2_pct := if flow_vol_total > 0 then co2_flow / flow_vol_total * 100 else 0
  let h2_ppmv := if flow_vol_total > 0 then h2_flow / flow_vol_total * 1000000 else 0
  ⟨methane_flow, co2_flow, h2_flow, flow_vol_total, methane_pct, co2_pct, h2_ppmv⟩

/-- `numpy.arange(start, stop, step)` for a positive step: the points
`start + i*step` for `0 ≤ i < ⌈(stop - start)/step⌉`. -/
def np_arange (start stop step : ℚ) : List ℚ :=
  if 0 < step then
    (List.range (⌈(stop - start) / step⌉).toNat).map
      (fun i : ℕ => start + (i : ℚ) * step)
  else []

/-- The evaluation grid `run_simulation` passes to `sys.simulate`
(simulation_helpers.py line 113):
`t_eval=np.arange(0, simulation_time + t_step, t_step)`. -/
def run_simulation_t_eval (simulation_time t_step : ℚ) : List ℚ :=
  np_arange 0 (simulation_time + t_step) t_step

/-- Whether `parse_ai_recommendations` hits one of its failure paths on the
given input: no regex match, a `json.loads` failure, a non-object parse result
(making `.items()` raise), or an exception escaping the entry loop. -/
def extraction_failed (raw : String) (include_kinetics : Bool) : Bool :=
  match jsonMatch raw with
  | none => true
  | some sub =>
    match json_loads sub with
    | some (JVal.jobj members) =>
      (extract_items include_kinetics (dictOf members) emptyQuad).2
    | some _ => true
    | none => true

lemma lookup_none_of_not_mem {α : Type} (l : List (String × α)) (k : String)
    (h : k ∉ l.map Prod.fst) : l.lookup k = none := by
  refine List.lookup_eq_none_iff.mpr ?_
  intro p hp
  refine bne_iff_ne.mpr ?_
  intro hk
  exact h (by rw [hk]; exact List.mem_map_of_mem Prod.fst hp)

lemma lookup_map_set_self {α : Type} (d : List (String × α)) (k : String)
    (v : α) (h : (d.lookup k).isSome) :
    ((d.map (fun p => if p.1 = k then (k, v) else p)).lookup k) = some v := by
  induction d with
  | nil => simp at h
  | cons p d ih =>
    obtain ⟨a, b⟩ := p
    by_cases hp : a = k
    · subst hp
      simp only [List.map_cons]
      rw [if_true]
      exact List.lookup_cons_self
    · have hb : (k == a) = false := beq_false_of_ne (Ne.symm hp)
      simp only [List.lookup_cons, hb] at h
      simp only [List.map_cons]
      rw [if_neg hp, List.lookup_cons, hb]
      exact ih h

lemma lookup_map_set_ne {α : Type} (d : List (String × α)) (k : String)
    (v : α) (k' : String) (h : k' ≠ k) :
    ((d.map (fun p => if p.1 = k then (k, v) else p)).lookup k') = d.lookup k' := by
  induction d with
  | nil => rfl
  | cons p d ih =>
    obtain ⟨a, b⟩ := p
    simp only [List.map_cons]
    by_cases hp : a = k
    · subst hp
      have hb : (k' == a) = false := beq_false_of_ne h
      rw [if_pos rfl, List.lookup_cons, List.lookup_cons, hb]
      exact ih
    · rw [if_neg hp, List.lookup_cons, List.lookup_cons]
      cases hb : k' == a with
      | true => rfl
      | false => exact ih

lemma dictSet_lookup_self {α : Type} (d : List (String × α)) (k : String)
    (v : α) : (dictSet d k v).lookup k = some v := by
  unfold dictSet
  by_cases h : (d.lookup k).isSome
  · rw [if_pos h]
    exact lookup_map_set_self d k v h
  · rw [if_neg h, List.lookup_append]
    rw [Option.not_isSome_iff_eq_none] at h
    rw [h]
    simp

lemma dictSet_lookup_ne {α : Type} (d : List (String × α)) (k : String)
    (v : α) (k' : String) (h : k' ≠ k) :
    (dictSet d k v).lookup k' = d.lookup k' := by
  unfold dictSet
  by_cases hp : (d.lookup k).isSome
  · rw [if_pos hp]
    exact lookup_map_set_ne d k v k' h
  · rw [if_neg hp, List.lookup_append]
    have hb : (k' == k) = false := beq_false_of_ne h
    rw [List.lookup_cons, hb]
    cases hd : d.lookup k' <;> rfl

lemma dictSet_lookup_isSome {α : Type} (d : List (String × α)) (k : String)
    (v : α) (k' : String) :
    ((dictSet d k v).lookup k').isSome ↔ k' = k ∨ (d.lookup k').isSome := by
  by_cases hk : k' = k
  · subst hk
    simp [dictSet_lookup_self]
  · rw [dictSet_lookup_ne d k v k' hk]
    simp [hk]

lemma concMergeStep_lookup_same (d : List (String × ℚ)) (a : String) (b : ℚ) :
    (concMergeStep d (a, b)).lookup a
      = if (d.lookup a).isSome then some b else none := by
  unfold concMergeStep
  by_cases h : (d.lookup a).isSome
  · simp only [if_pos h]
    exact dictSet_lookup_self d a b
  · simp only [if_neg h]
    rw [Option.not_isSome_iff_eq_none] at h
    simp [h]

lemma concMergeStep_lookup_ne (d : List (String × ℚ)) (a : String) (b : ℚ)
    (k : String) (h : k ≠ a) :
    (concMergeStep d (a, b)).lookup k = d.lookup k := by
  unfold concMergeStep
  by_cases hp : (d.lookup a).isSome
  · simp only [if_pos hp]
    exact dictSet_lookup_ne d a b k h
  · simp [hp]

lemma concMerge_fold_lookup (O : List (String × ℚ))
    (hO : (O.map Prod.fst).Nodup) (d : List (String × ℚ)) (k : String) :
    (O.foldl concMergeStep d).lookup k
      = if (d.lookup k).isSome then (O.lookup k).or (d.lookup k) else none := by
  induction O generalizing d with
  | nil =>
    cases h : d.lookup k <;> simp [h]
  | cons kv O ih =>
    obtain ⟨a, b⟩ := kv
    simp only [List.map_cons, List.nodup_cons] at hO
    obtain ⟨ha, hO'⟩ := hO
    rw [List.foldl_cons, ih hO']
    by_cases hk : k = a
    · subst hk
      have hOl : O.lookup k = none := lookup_none_of_not_mem O k ha
      cases hd : d.lookup k with
      | none =>
        have hstep : (concMergeStep d (k, b)).lookup k = none := by
          rw [concMergeStep_lookup_same, hd]
          simp
        simp [hstep, hd]
      | some dv =>
        have hstep : (concMergeStep d (k, b)).lookup k = some b := by
          rw [concMergeStep_lookup_same, hd]
          simp
        rw [hstep, List.lookup_cons_self]
        simp [hd, hOl]
    · have hstep : (concMergeStep d (a, b)).lookup k = d.lookup k :=
        concMergeStep_lookup_ne d a b k hk
      have hb : (k == a) = false := beq_false_of_ne hk
      rw [hstep, List.lookup_cons, hb]

lemma extract_items_cons_arr (ik : Bool) (k : String) (xs : List JVal)
    (rest : List (String × JVal)) (acc : AIQuad) :
    extract_items ik ((k, JVal.jarr xs) :: rest) acc
      = if xs.length < 3 then extract_items ik rest acc
        else
          match pyFloat (xs.getD 0 JVal.jnull) with
          | none => (acc, true)
          | some val =>
            extract_items ik rest
              (recordEntry ik k val (xs.getD 2 JVal.jnull) acc) := rfl

lemma recordEntry_kinetic_off (k : String) (val : ℚ) (e : JVal) (m : AIQuad) :
    (recordEntry false k val e m).kinetic_values = m.kinetic_values
    ∧ (recordEntry false k val e m).kinetic_explanations = m.kinetic_explanations := by
  unfold recordEntry
  by_cases hf : k ∈ feedstock_keys
  · simp [hf]
  · simp [hf]

lemma recordEntry_fv_isSome (ik : Bool) (k : String) (val : ℚ) (e : JVal)
    (m : AIQuad) (k' : String) (h : ((m.feedstock_values.lookup k').isSome)) :
    ((recordEntry ik k val e m).feedstock_values.lookup k').isSome := by
  unfold recordEntry
  by_cases hf : k ∈ feedstock_keys
  · simp only [if_pos hf]
    exact (dictSet_lookup_isSome _ _ _ _).mpr (Or.inr h)
  · by_cases hk : ik ∧ k ∈ kinetic_keys
    · simp [hf, hk, h]
    · simp [hf, hk, h]

lemma recordEntry_fv_self (ik : Bool) (k : String) (val : ℚ) (e : JVal)
    (m : AIQuad) (hf : k ∈ feedstock_keys) :
    ((recordEntry ik k val e m).feedstock_values.lookup k).isSome := by
  unfold recordEntry
  simp only [if_pos hf]
  exact (dictSet_lookup_isSome _ _ _ _).mpr (Or.inl rfl)

lemma extract_items_fv_isSome (ik : Bool) (entries : List (String × JVal))
    (acc : AIQuad) (k : String)
    (h : (acc.feedstock_values.lookup k).isSome) :
    (((extract_items ik entries acc).1.feedstock_values.lookup k).isSome) := by
  induction entries generalizing acc with
  | nil => exact h
  | cons kv rest ih =>
    obtain ⟨k', v⟩ := kv
    cases v with
    | jarr xs =>
      rw [extract_items_cons_arr]
      by_cases hlen : xs.length < 3
      · rw [if_pos hlen]
        exact ih acc h
      · rw [if_neg hlen]
        cases hfl : pyFloat (xs.getD 0 JVal.jnull) with
        | none => exact h
        | some val => exact ih _ (recordEntry_fv_isSome ik k' val _ acc k h)
    | jnull => exact ih acc h
    | jbool b => exact ih acc h
    | jnum q => exact ih acc h
    | jstr s => exact ih acc h
    | jobj ms => exact ih acc h

lemma extract_items_kinetic_off (entries : List (String × JVal)) (acc : AIQuad) :
    (extract_items false entries acc).1.kinetic_values = acc.kinetic_values
    ∧ (extract_items false entries acc).1.kinetic_explanations
        = acc.kinetic_explanations := by
  induction entries generalizing acc with
  | nil => exact ⟨rfl, rfl⟩
  | cons kv rest ih =>
    obtain ⟨k', v⟩ := kv
    cases v with
    | jarr xs =>
      rw [extract_items_cons_arr]
      by_cases hlen : xs.length < 3
      · rw [if_pos hlen]
        exact ih acc
      · rw [if_neg hlen]
        cases hfl : pyFloat (xs.getD 0 JVal.jnull) with
        | none => exact ⟨rfl, rfl⟩
        | some val =>
          have hr := recordEntry_kinetic_off k' val (xs.getD 2 JVal.jnull) acc
          have := ih (recordEntry false k' val (xs.getD 2 JVal.jnull) acc)
          exact ⟨this.1.trans hr.1, this.2.trans hr.2⟩
    | jnull => exact ih acc
    | jbool b => exact ih acc
    | jnum q => exact ih acc
    | jstr s => exact ih acc
    | jobj ms => exact ih acc

lemma extract_items_cons_short (ik : Bool) (k : String) (xs : List JVal)
    (rest : List (String × JVal)) (acc : AIQuad) (hlen : xs.length < 3) :
    extract_items ik ((k, JVal.jarr xs) :: rest) acc
      = extract_items ik rest acc := by
  rw [extract_items_cons_arr, if_pos hlen]

lemma extract_items_cons_bad (ik : Bool) (k : String) (xs : List JVal)
    (rest : List (String × JVal)) (acc : AIQuad) (hlen : ¬ xs.length < 3)
    (hfl : pyFloat (xs.getD 0 JVal.jnull) = none) :
    extract_items ik ((k, JVal.jarr xs) :: rest) acc = (acc, true) := by
  rw [extract_items_cons_arr, if_neg hlen, hfl]

lemma extract_items_cons_good (ik : Bool) (k : String) (xs : List JVal)
    (rest : List (String × JVal)) (acc : AIQuad) (val : ℚ)
    (hlen : ¬ xs.length < 3)
    (hfl : pyFloat (xs.getD 0 JVal.jnull) = some val) :
    extract_items ik ((k, JVal.jarr xs) :: rest) acc
      = extract_items ik rest
          (recordEntry ik k val (xs.getD 2 JVal.jnull) acc) := by
  rw [extract_items_cons_arr, if_neg hlen, hfl]

lemma extract_items_records (entries : List (String × JVal)) (k : String)
    (xs : List JVal) (hlen : ¬ xs.length < 3) (hf : k ∈ feedstock_keys) :
    ∀ acc : AIQuad, (extract_items false entries acc).2 = false →
      (k, JVal.jarr xs) ∈ entries →
      (((extract_items false entries acc).1.feedstock_values.lookup k).isSome) := by
  induction entries with
  | nil =>
    intro acc _ hmem
    cases hmem
  | cons kv rest ih =>
    intro acc hok hmem
    obtain ⟨k', v⟩ := kv
    rcases List.mem_cons.mp hmem with hhead | htail
    · rw [Prod.mk.injEq] at hhead
      obtain ⟨hk, hv⟩ := hhead
      subst hk
      subst hv
      cases hfl : pyFloat (xs.getD 0 JVal.jnull) with
      | none =>
        rw [extract_items_cons_bad _ _ _ _ _ hlen hfl] at hok
        simp at hok
      | some val =>
        rw [extract_items_cons_good _ _ _ _ _ _ hlen hfl]
        exact extract_items_fv_isSome _ _ _ _
          (recordEntry_fv_self false k val (xs.getD 2 JVal.jnull) acc hf)
    · cases v with
      | jarr ys =>
        by_cases hl : ys.length < 3
        · rw [extract_items_cons_short _ _ _ _ _ hl] at hok ⊢
          exact ih acc hok htail
        · cases hfl : pyFloat (ys.getD 0 JVal.jnull) with
          | none =>
            rw [extract_items_cons_bad _ _ _ _ _ hl hfl] at hok
            simp at hok
          | some val =>
            rw [extract_items_cons_good _ _ _ _ _ _ hl hfl] at hok ⊢
            exact ih _ hok htail
      | jnull => exact ih acc hok htail
      | jbool b => exact ih acc hok htail
      | jnum q => exact ih acc hok htail
      | jstr s => exact ih acc hok htail
      | jobj ms => exact ih acc hok htail

lemma extract_items_append (ik : Bool) (pre post : List (String × JVal))
    (acc : AIQuad) :
    extract_items ik (pre ++ post) acc
      = if (extract_items ik pre acc).2 then extract_items ik pre acc
        else extract_items ik post (extract_items ik pre acc).1 := by
  induction pre generalizing acc with
  | nil => rfl
  | cons kv pre ih =>
    obtain ⟨k, v⟩ := kv
    cases v with
    | jarr xs =>
      by_cases hl : xs.length < 3
      · rw [List.cons_append, extract_items_cons_short _ _ _ _ _ hl,
            extract_items_cons_short _ _ _ _ _ hl]
        exact ih acc
      · cases hfl : pyFloat (xs.getD 0 JVal.jnull) with
        | none =>
          rw [List.cons_append, extract_items_cons_bad _ _ _ _ _ hl hfl,
              extract_items_cons_bad _ _ _ _ _ hl hfl]
          rfl
        | some val =>
          rw [List.cons_append, extract_items_cons_good _ _ _ _ _ _ hl hfl,
              extract_items_cons_good _ _ _ _ _ _ hl hfl]
          exact ih _
    | jnull => exact ih acc
    | jbool b => exact ih acc
    | jnum q => exact ih acc
    | jstr s => exact ih acc
    | jobj ms => exact ih acc

/-- Claim C1: resolver precedence. For every override map `O` (with the unique
keys of a Python dict) and every key `k`, the resolved concentration map built
by `run_simulation` — and likewise the one built by `create_influent_stream` —
assigns `O[k]` when `k` is a registry key present in `O`, the registry default
when `k` is a registry key absent from `O`, and nothing at all when `k` is not
one of the 26 registry keys (unknown override keys are ignored and never
appear). -/
theorem resolver_precedence (C_mw N_mw : ℚ) (O : List (String × ℚ))
    (hO : (O.map Prod.fst).Nodup) (k : String) :
    ((run_simulation_resolve C_mw N_mw O).lookup k
        = if ((run_simulation_default_conc C_mw N_mw).lookup k).isSome
          then (O.lookup k).or ((run_simulation_default_conc C_mw N_mw).lookup k)
          else none)
    ∧ ((create_influent_resolve C_mw N_mw O).lookup k
        = if ((create_influent_default_conc C_mw N_mw).lookup k).isSome
          then (O.lookup k).or ((create_influent_default_conc C_mw N_mw).lookup k)
          else none)
    ∧ (run_simulation_default_conc C_mw N_mw).length = 26
    ∧ ((run_simulation_default_conc C_mw N_mw).map Prod.fst).Nodup := by
  refine ⟨concMerge_fold_lookup O hO _ k, concMerge_fold_lookup O hO _ k, rfl, ?_⟩
  have h : (run_simulation_default_conc C_mw N_mw).map Prod.fst
      = feedstock_keys := rfl
  rw [h]
  decide

/-- Witness for C1 at a concrete override (`S_su` overridden to 0.05). -/
theorem resolver_precedence_witness :
    (([(("S_su" : String), (0.05 : ℚ))].map Prod.fst).Nodup)
    ∧ ((run_simulation_resolve 12.011 14.007 [("S_su", 0.05)]).lookup "S_su"
        = if ((run_simulation_default_conc 12.011 14.007).lookup "S_su").isSome
          then ([(("S_su" : String), (0.05 : ℚ))].lookup "S_su").or
              ((run_simulation_default_conc 12.011 14.007).lookup "S_su")
          else none) :=
  ⟨by decide,
   (resolver_precedence 12.011 14.007 [("S_su", 0.05)] (by decide) "S_su").1⟩

/-- Claim C6: reactor sizing. For every flow `Q` and retention time `HRT`,
the `AnaerobicCSTR` built by `run_simulation` has liquid volume exactly
`Q*HRT` and gas headspace exactly `0.1*(Q*HRT)` (a fixed 10% of the liquid
volume), at the given temperature. -/
theorem reactor_sizing (Q Temp HRT : ℚ) :
    (run_simulation_AD Q Temp HRT).V_liq = Q * HRT
    ∧ (run_simulation_AD Q Temp HRT).V_gas = 0.1 * (Q * HRT)
    ∧ (run_simulation_AD Q Temp HRT).T = Temp := by
  refine ⟨rfl, ?_, rfl⟩
  show Q * HRT * 0.1 = 0.1 * (Q * HRT)
  ring

/-- Claim C7: gas-fraction degeneracy. Whenever the computed methane, CO2 and
hydrogen volumetric flows of `display_gas_stream` are all zero, the total
volumetric flow is zero and the reported methane percentage, CO2 percentage
and H2 ppmv are all exactly 0 (the `flow_vol_total > 0` guard takes the
else-branch, so no division by zero is evaluated). -/
theorem gas_fraction_degeneracy (a b c : ℚ)
    (h1 : (display_gas_stream a b c).methane_flow = 0)
    (h2 : (display_gas_stream a b c).co2_flow = 0)
    (h3 : (display_gas_stream a b c).h2_flow = 0) :
    (display_gas_stream a b c).flow_vol_total = 0
    ∧ (display_gas_stream a b c).methane_pct = 0
    ∧ (display_gas_stream a b c).co2_pct = 0
    ∧ (display_gas_stream a b c).h2_ppmv = 0 := by
  have ht : (display_gas_stream a b c).flow_vol_total = 0 := by
    rw [show (display_gas_stream a b c).flow_vol_total
        = (display_gas_stream a b c).methane_flow
          + (display_gas_stream a b c).co2_flow
          + (display_gas_stream a b c).h2_flow from rfl, h1, h2, h3]
    ring
  refine ⟨ht, ?_, ?_, ?_⟩
  · rw [show (display_gas_stream a b c).methane_pct
        = if (display_gas_stream a b c).flow_vol_total > 0
          then (display_gas_stream a b c).methane_flow
              / (display_gas_stream a b c).flow_vol_total * 100
          else 0 from rfl, ht]
    simp
  · rw [show (display_gas_stream a b c).co2_pct
        = if (display_gas_stream a b c).flow_vol_total > 0
          then (display_gas_stream a b c).co2_flow
              / (display_gas_stream a b c).flow_vol_total * 100
          else 0 from rfl, ht]
    simp
  · rw [show (display_gas_stream a b c).h2_ppmv
        = if (display_gas_stream a b c).flow_vol_total > 0
          then (display_gas_stream a b c).h2_flow
              / (display_gas_stream a b c).flow_vol_total * 1000000
          else 0 from rfl, ht]
    simp

/-- Witness for C7: a stream with zero `S_ch4`, `S_IC` and `S_h2` mass flows
has all three volumetric flows zero and reports 0% / 0% / 0 ppmv. -/
theorem gas_fraction_degeneracy_witness :
    (display_gas_stream 0 0 0).methane_flow = 0
    ∧ (display_gas_stream 0 0 0).co2_flow = 0
    ∧ (display_gas_stream 0 0 0).h2_flow = 0
    ∧ (display_gas_stream 0 0 0).methane_pct = 0
    ∧ (display_gas_stream 0 0 0).co2_pct = 0
    ∧ (display_gas_stream 0 0 0).h2_ppmv = 0 := by
  have h1 : (display_gas_stream 0 0 0).methane_flow = 0 := by
    norm_num [display_gas_stream]
  have h2 : (display_gas_stream 0 0 0).co2_flow = 0 := by
    norm_num [display_gas_stream]
  have h3 : (display_gas_stream 0 0 0).h2_flow = 0 := by
    norm_num [display_gas_stream]
  have h := gas_fraction_degeneracy 0 0 0 h1 h2 h3
  exact ⟨h1, h2, h3, h.2.1, h.2.2.1, h.2.2.2⟩

/-- Claim C8: sampling grid. For a horizon `H` that is an exact multiple
`n * s` of a positive step `s`, the `t_eval` grid `run_simulation` passes to
the engine is exactly the `n + 1 = H/s + 1` uniformly spaced points
`0, s, 2s, …, H` — from 0 to `H` inclusive. (The grid is what the repository
computes; the returned series themselves come from the external engine.) -/
theorem sampling_grid (H s : ℚ) (n : ℕ) (hs : 0 < s) (hH : H = (n : ℚ) * s) :
    run_simulation_t_eval H s
      = (List.range (n + 1)).map (fun i : ℕ => (i : ℚ) * s)
    ∧ (run_simulation_t_eval H s).length = n + 1
    ∧ (run_simulation_t_eval H s)[0]? = some 0
    ∧ (run_simulation_t_eval H s)[n]? = some H := by
  have hs' : s ≠ 0 := ne_of_gt hs
  have hgrid : run_simulation_t_eval H s
      = (List.range (n + 1)).map (fun i : ℕ => (i : ℚ) * s) := by
    unfold run_simulation_t_eval np_arange
    rw [if_pos hs]
    have h1 : (H + s - 0) / s = ((n : ℚ) + 1) := by
      rw [hH]
      field_simp
      ring
    rw [h1]
    have h2 : (⌈((n : ℚ) + 1)⌉).toNat = n + 1 := by
      rw [show ((n : ℚ) + 1) = ((n + 1 : ℕ) : ℚ) by push_cast; ring,
        Int.ceil_natCast]
      simp
    rw [h2]
    simp only [zero_add]
  refine ⟨hgrid, ?_, ?_, ?_⟩
  · rw [hgrid]
    simp
  · rw [hgrid, List.getElem?_map, List.getElem?_range (by omega : 0 < n + 1)]
    simp
  · rw [hgrid, List.getElem?_map, List.getElem?_range (by omega : n < n + 1)]
    simp [hH]

/-- Witness for C8 at the spec's scenario: horizon 150 d, step 0.1 d gives a
grid of exactly 1501 points. -/
theorem sampling_grid_witness :
    (0 : ℚ) < 0.1
    ∧ (150 : ℚ) = ((1500 : ℕ) : ℚ) * 0.1
    ∧ (run_simulation_t_eval 150 0.1).length = 1500 + 1 :=
  ⟨by norm_num, by norm_num,
   (sampling_grid 150 0.1 1500 (by norm_num) (by norm_num)).2.1⟩

/-- Claim C10: display/simulation influent agreement. The default table of
`run_simulation` equals the one of `create_influent_stream` and the
`feedstock_defaults` table of `main` (three copies of the same 26 defaults),
and for every override map the two resolvers produce identical resolved
influent concentration maps. -/
theorem influent_agreement (C_mw N_mw : ℚ) :
    run_simulation_default_conc C_mw N_mw = create_influent_default_conc C_mw N_mw
    ∧ run_simulation_default_conc C_mw N_mw = feedstock_defaults_main C_mw N_mw
    ∧ ∀ conc : List (String × ℚ),
        run_simulation_resolve C_mw N_mw conc
          = create_influent_resolve C_mw N_mw conc := by
  exact ⟨rfl, rfl, fun conc => rfl⟩


lemma parse_ai_recommendations_of_match (raw sub : String) (ik : Bool)
    (h : jsonMatch raw = some sub) :
    parse_ai_recommendations raw ik
      = match json_loads sub with
        | some (JVal.jobj members) =>
          (extract_items ik (dictOf members) emptyQuad).1
        | some _ => emptyQuad
        | none => emptyQuad := by
  unfold parse_ai_recommendations
  rw [h]

/-- Claim C2 counterexample: in the object
`{"S_su": [1.0], "S_aa": ["x", "unit", "expl"], "S_fa": [2.0, "u", "e"]}`
the too-short entry is skipped, but the non-numeric entry `"S_aa"` makes
`float()` raise, aborting the loop — so the well-formed sibling `"S_fa"` is
NOT extracted (the claim says it still would be); the returned feedstock map
is empty. -/
theorem extractor_entry_robustness_cex :
    (parse_ai_recommendations
        "\x7b\"S_su\": [1.0], \"S_aa\": [\"x\", \"unit\", \"expl\"], \"S_fa\": [2.0, \"u\", \"e\"]\x7d"
        true).feedstock_values = []
    ∧ ((parse_ai_recommendations
        "\x7b\"S_su\": [1.0], \"S_aa\": [\"x\", \"unit\", \"expl\"], \"S_fa\": [2.0, \"u\", \"e\"]\x7d"
        true).feedstock_values.lookup "S_fa") = none := by
  exact ⟨by decide, by decide⟩

/-- Claim C2 as amended: an entry whose value is not a sequence, or is a
sequence of fewer than 3 elements, is skipped silently and extraction
continues with the remaining entries; but an entry whose first element is not
convertible to a floating-point number aborts the loop, returning exactly the
maps accumulated so far (with the raised flag), so a sibling well-formed key
is extracted only if it precedes the bad entry. -/
theorem extractor_entry_robustness_amended (ik : Bool) (k : String)
    (rest : List (String × JVal)) (acc : AIQuad) :
    (∀ v : JVal, (∀ xs, v ≠ JVal.jarr xs) →
        extract_items ik ((k, v) :: rest) acc = extract_items ik rest acc)
    ∧ (∀ xs : List JVal, xs.length < 3 →
        extract_items ik ((k, JVal.jarr xs) :: rest) acc
          = extract_items ik rest acc)
    ∧ (∀ xs : List JVal, ¬ xs.length < 3 →
        pyFloat (xs.getD 0 JVal.jnull) = none →
        extract_items ik ((k, JVal.jarr xs) :: rest) acc = (acc, true))
    ∧ (∀ (xs : List JVal) (val : ℚ), ¬ xs.length < 3 →
        pyFloat (xs.getD 0 JVal.jnull) = some val →
        extract_items ik ((k, JVal.jarr xs) :: rest) acc
          = extract_items ik rest
              (recordEntry ik k val (xs.getD 2 JVal.jnull) acc)) := by
  refine ⟨?_, fun xs h => extract_items_cons_short ik k xs rest acc h,
    fun xs h1 h2 => extract_items_cons_bad ik k xs rest acc h1 h2,
    fun xs val h1 h2 => extract_items_cons_good ik k xs rest acc val h1 h2⟩
  intro v hv
  cases v with
  | jarr xs => exact absurd rfl (hv xs)
  | jnull => rfl
  | jbool b => rfl
  | jnum q => rfl
  | jstr s => rfl
  | jobj ms => rfl

/-- Witness for the amended C2: a concrete non-convertible entry aborts the
loop and returns the (empty) maps accumulated so far. -/
theorem extractor_entry_robustness_witness :
    (¬ ([JVal.jstr "x", JVal.jstr "u", JVal.jstr "e"] : List JVal).length < 3)
    ∧ pyFloat
        (([JVal.jstr "x", JVal.jstr "u", JVal.jstr "e"] : List JVal).getD 0
          JVal.jnull) = none
    ∧ extract_items true
        [("S_aa", JVal.jarr [JVal.jstr "x", JVal.jstr "u", JVal.jstr "e"])]
        emptyQuad = (emptyQuad, true) :=
  ⟨by decide, by decide,
   (extractor_entry_robustness_amended true "S_aa" [] emptyQuad).2.2.1
     [JVal.jstr "x", JVal.jstr "u", JVal.jstr "e"] (by decide) (by decide)⟩

/-- Claim C3: extractor totality. For every input string and flag the function
returns a quadruple of maps, and each control path — no JSON-like substring,
`json.loads` failure, or a successfully parsed object — ends in a normal
return (failures before the loop give the empty maps; an object is processed
by the entry loop whose accumulated maps are returned even when the loop
raises). -/
theorem extractor_totality (raw : String) (ik : Bool) :
    (∃ fv fe kv ke, parse_ai_recommendations raw ik = AIQuad.mk fv fe kv ke)
    ∧ (jsonMatch raw = none → parse_ai_recommendations raw ik = emptyQuad)
    ∧ (∀ sub, jsonMatch raw = some sub → json_loads sub = none →
        parse_ai_recommendations raw ik = emptyQuad)
    ∧ (∀ sub members, jsonMatch raw = some sub →
        json_loads sub = some (JVal.jobj members) →
        parse_ai_recommendations raw ik
          = (extract_items ik (dictOf members) emptyQuad).1) := by
  refine ⟨⟨_, _, _, _, rfl⟩, ?_, ?_, ?_⟩
  · intro h
    unfold parse_ai_recommendations
    rw [h]
  · intro sub h1 h2
    rw [parse_ai_recommendations_of_match raw sub ik h1, h2]
  · intro sub members h1 h2
    rw [parse_ai_recommendations_of_match raw sub ik h1, h2]

/-- Witness for C3 on the empty input string. -/
theorem extractor_totality_witness :
    jsonMatch "" = none ∧ parse_ai_recommendations "" true = emptyQuad :=
  ⟨by decide, (extractor_totality "" true).2.1 (by decide)⟩

/-- Claim C4 counterexample: on
`res {"S_su": [1.0, "u", "e"], "S_aa": ["x", "u", "e"]} end` the extraction
fails (the `"S_aa"` entry makes `float()` raise), yet the returned feedstock
map is NOT empty — it still holds the `"S_su"` entry recorded before the
failure, contradicting "a failing extraction never returns partial data". -/
theorem extractor_atomicity_cex :
    extraction_failed
        "res \x7b\"S_su\": [1.0, \"u\", \"e\"], \"S_aa\": [\"x\", \"u\", \"e\"]\x7d end"
        true = true
    ∧ (parse_ai_recommendations
        "res \x7b\"S_su\": [1.0, \"u\", \"e\"], \"S_aa\": [\"x\", \"u\", \"e\"]\x7d end"
        true).feedstock_values ≠ []
    ∧ ((parse_ai_recommendations
        "res \x7b\"S_su\": [1.0, \"u\", \"e\"], \"S_aa\": [\"x\", \"u\", \"e\"]\x7d end"
        true).feedstock_values.lookup "S_su").isSome = true := by
  exact ⟨by decide, by decide, by decide⟩

/-- Claim C4 as amended: failures before the entry loop (no JSON-like
substring, or `json.loads` raising) return four empty maps; but an error while
processing entries returns exactly the maps accumulated before the failing
entry, which may be non-empty — a failing extraction can return partial
data. -/
theorem extractor_atomicity_amended (raw : String) (ik : Bool) :
    ((∀ sub, jsonMatch raw = some sub → json_loads sub = none) →
        parse_ai_recommendations raw ik = emptyQuad)
    ∧ (∀ (pre : List (String × JVal)) (k : String) (xs : List JVal)
          (rest : List (String × JVal)) (acc : AIQuad),
        ¬ xs.length < 3 → pyFloat (xs.getD 0 JVal.jnull) = none →
        (extract_items ik pre acc).2 = false →
        extract_items ik (pre ++ (k, JVal.jarr xs) :: rest) acc
          = ((extract_items ik pre acc).1, true)) := by
  constructor
  · intro h
    cases hm : jsonMatch raw with
    | none =>
      unfold parse_ai_recommendations
      rw [hm]
    | some sub => rw [parse_ai_recommendations_of_match raw sub ik hm, h sub hm]
  · intro pre k xs rest acc h1 h2 hok
    rw [extract_items_append, hok]
    simp only [Bool.false_eq_true, if_false]
    exact extract_items_cons_bad ik k xs rest _ h1 h2

/-- Witness for the amended C4: after one well-formed entry, a non-convertible
entry aborts and the prefix's accumulated maps are returned. -/
theorem extractor_atomicity_witness :
    (¬ ([JVal.jstr "x", JVal.jstr "u", JVal.jstr "e"] : List JVal).length < 3)
    ∧ pyFloat
        (([JVal.jstr "x", JVal.jstr "u", JVal.jstr "e"] : List JVal).getD 0
          JVal.jnull) = none
    ∧ (extract_items true
        [("S_su", JVal.jarr [JVal.jnum 1, JVal.jstr "u", JVal.jstr "e"])]
        emptyQuad).2 = false
    ∧ extract_items true
        ([("S_su", JVal.jarr [JVal.jnum 1, JVal.jstr "u", JVal.jstr "e"])]
          ++ [("S_aa", JVal.jarr [JVal.jstr "x", JVal.jstr "u", JVal.jstr "e"])])
        emptyQuad
      = ((extract_items true
          [("S_su", JVal.jarr [JVal.jnum 1, JVal.jstr "u", JVal.jstr "e"])]
          emptyQuad).1, true) :=
  ⟨by decide, by decide, by decide,
   (extractor_atomicity_amended "" true).2
     [("S_su", JVal.jarr [JVal.jnum 1, JVal.jstr "u", JVal.jstr "e"])]
     "S_aa" [JVal.jstr "x", JVal.jstr "u", JVal.jstr "e"] [] emptyQuad
     (by decide) (by decide) (by decide)⟩

/-- Claim C5 counterexample: with `include_kinetics = False` and the object
`{"k_su": ["x", "u", "e"], "S_su": [1.0, "u", "e"]}`, the kinetic maps are
empty, but the well-formed feedstock key `"S_su"` is NOT recorded — the
`"k_su"` entry's `float("x")` raises before key classification and aborts the
loop, contradicting "every well-formed feedstock key present is still
recorded". -/
theorem extractor_key_gating_cex :
    ((parse_ai_recommendations
        "\x7b\"k_su\": [\"x\", \"u\", \"e\"], \"S_su\": [1.0, \"u\", \"e\"]\x7d"
        false).feedstock_values.lookup "S_su") = none
    ∧ (parse_ai_recommendations
        "\x7b\"k_su\": [\"x\", \"u\", \"e\"], \"S_su\": [1.0, \"u\", \"e\"]\x7d"
        false).kinetic_values = []
    ∧ (parse_ai_recommendations
        "\x7b\"k_su\": [\"x\", \"u\", \"e\"], \"S_su\": [1.0, \"u\", \"e\"]\x7d"
        false).kinetic_explanations = [] := by
  exact ⟨by decide, by decide, rfl⟩

/-- Claim C5 as amended: with `include_kinetics = False` the kinetic maps are
never written (they stay exactly as in the accumulator, hence empty), and
every well-formed feedstock entry of the object is recorded provided the loop
completes without an exception (no entry with a non-convertible first
element was hit). -/
theorem extractor_key_gating_amended (entries : List (String × JVal))
    (acc : AIQuad) :
    ((extract_items false entries acc).1.kinetic_values = acc.kinetic_values
      ∧ (extract_items false entries acc).1.kinetic_explanations
          = acc.kinetic_explanations)
    ∧ ((extract_items false entries acc).2 = false →
        ∀ (k : String) (xs : List JVal), (k, JVal.jarr xs) ∈ entries →
          ¬ xs.length < 3 → k ∈ feedstock_keys →
          ((extract_items false entries acc).1.feedstock_values.lookup k).isSome) := by
  refine ⟨extract_items_kinetic_off entries acc, ?_⟩
  intro hok k xs hmem hlen hf
  exact extract_items_records entries k xs hlen hf acc hok hmem

/-- Witness for the amended C5: a lone well-formed feedstock entry is recorded
and the kinetic maps stay empty. -/
theorem extractor_key_gating_witness :
    (extract_items false
        [("S_su", JVal.jarr [JVal.jnum 1, JVal.jstr "u", JVal.jstr "e"])]
        emptyQuad).2 = false
    ∧ (extract_items false
        [("S_su", JVal.jarr [JVal.jnum 1, JVal.jstr "u", JVal.jstr "e"])]
        emptyQuad).1.kinetic_values = []
    ∧ ((extract_items false
        [("S_su", JVal.jarr [JVal.jnum 1, JVal.jstr "u", JVal.jstr "e"])]
        emptyQuad).1.feedstock_values.lookup "S_su").isSome = true := by
  have h := extractor_key_gating_amended
    [("S_su", JVal.jarr [JVal.jnum 1, JVal.jstr "u", JVal.jstr "e"])] emptyQuad
  refine ⟨by decide, h.1.1, ?_⟩
  exact h.2 (by decide) "S_su" [JVal.jnum 1, JVal.jstr "u", JVal.jstr "e"]
    (List.mem_cons_self _ _) (by decide) (by decide)

/-- Claim C9: override sets untouched on parse failure. For every response
text in which no JSON object can be located and parsed,
`parse_ai_recommendations` returns four empty maps, and the ingestion step of
`main` leaves all four session override sets exactly as they were. -/
theorem override_sets_untouched (response : String) (ik : Bool)
    (s : SessionState)
    (h : ∀ sub, jsonMatch response = some sub → json_loads sub = none) :
    parse_ai_recommendations response ik = emptyQuad
    ∧ ingest_ai_response s response ik = s := by
  have hp : parse_ai_recommendations response ik = emptyQuad := by
    cases hm : jsonMatch response with
    | none =>
      unfold parse_ai_recommendations
      rw [hm]
    | some sub =>
      rw [parse_ai_recommendations_of_match response sub ik hm, h sub hm]
  refine ⟨hp, ?_⟩
  simp [ingest_ai_response, hp, emptyQuad]

/-- Witness for C9: a response with no JSON leaves a concrete session state
unchanged. -/
theorem override_sets_untouched_witness :
    (∀ sub, jsonMatch "no json here" = some sub → json_loads sub = none)
    ∧ ingest_ai_response (SessionState.mk [("S_su", 2)] [] [] [])
        "no json here" false
      = SessionState.mk [("S_su", 2)] [] [] [] := by
  have h : ∀ sub, jsonMatch "no json here" = some sub → json_loads sub = none := by
    intro sub hsub
    have hn : jsonMatch "no json here" = none := by decide
    rw [hn] at hsub
    cases hsub
  exact ⟨h, (override_sets_untouched "no json here" false
    (SessionState.mk [("S_su", 2)] [] [] []) h).2⟩
